import Mathlib

/-!
Shallow embedding of the `api` package (HTTP handler adaptation and dispatch
engine): error taxonomy (`http.go`), middleware composition, permission
gating, handler-shape validation and the dispatch adapter (`server.go`),
the value store, the listener startup loop, and the status-carrying output
wrapper. Definitions are transliterated from the Go source; theorems settle
the frozen claims about the spec.
-/

namespace Api

/-! ## Error taxonomy (src/http.go)

Go errors, restricted to the features the package inspects: `errors.New` /
`fmt.Errorf` leaves, the `sql.ErrNoRows` sentinel, the package's
`errHTTPStatus` wrapper (carries a status, has `Error`, `Unwrap`,
`HTTPStatus`), and `fmt.Errorf("...: %w", err)` wrapping. -/

inductive GoErr : Type where
  | basic (msg : String)
  | sqlNoRows
  | withStatus (status : Int) (inner : GoErr)
  | wrapf (pre : String) (inner : GoErr)
deriving DecidableEq, Repr

/-- Go `err.Error()`: `errHTTPStatus.Error` returns the wrapped error's text;
`fmt.Errorf("p%w", e)` yields the prefix followed by the wrapped text. -/
def GoErr.message : GoErr → String
  | .basic m => m
  | .sqlNoRows => "sql: no rows in result set"
  | .withStatus _ e => e.message
  | .wrapf p e => p ++ e.message

/-- Go `errors.As(err, &eh)` for `eh : HTTPStatus`: the first error in the
unwrap chain implementing `HTTPStatus() int` supplies the status.
`errHTTPStatus` implements it; plain and `%w`-wrapped errors do not. -/
def asHTTPStatus : GoErr → Option Int
  | .basic _ => none
  | .sqlNoRows => none
  | .withStatus s _ => some s
  | .wrapf _ e => asHTTPStatus e

/-- Go `errors.Is(err, sql.ErrNoRows)`: equality against the sentinel,
unwrapping through `errHTTPStatus.Unwrap` and `%w` wrappers. -/
def isNoRows : GoErr → Bool
  | .basic _ => false
  | .sqlNoRows => true
  | .withStatus _ e => isNoRows e
  | .wrapf _ e => isNoRows e

/-! ## Responses

A response records the status code sent by `WriteHeader`, the Content-Type
header if one was set, and the body. `httpMessage` bodies are the
single-field JSON objects written by `fmt.Fprintf(w, "{%q: %q}\n", label,
msg)`; raw bodies are `w.Write` output; json bodies come from
`json.Encoder.Encode`. -/

inductive RespBody : Type where
  | message (label : String) (msg : String)
  | raw (bytes : List Nat)
  | jsonBody (text : String)
deriving DecidableEq, Repr

structure Response : Type where
  status : Int
  contentType : Option String
  body : RespBody
deriving DecidableEq, Repr

/-- Transliterates `httpMessage(w, code, label, msg)` from src/http.go. -/
def httpMessage (code : Int) (label : String) (msg : String) : Response :=
  { status := code, contentType := some "application/json",
    body := .message label msg }

/-- Transliterates `httpError(w, err)` from src/http.go lines 97-124: the
status comes from `errors.As` against `HTTPStatus` if that succeeds, else
404 with the text replaced by "not found" when `errors.Is(err,
sql.ErrNoRows)`, else 400. The `X-SQL-Error` branch only sets an extra
header and never alters status or body, so it is not modelled. -/
def httpError (e : GoErr) : Response :=
  match asHTTPStatus e with
  | some s => httpMessage s "error" e.message
  | none =>
    if isNoRows e then httpMessage 404 "error" "not found"
    else httpMessage 400 "error" e.message

/-- Transliterates `httpCodeError(w, code, msg)`: wraps the message in
`HTTPError(code, msg)` (an `errHTTPStatus`) and hands it to `httpError`. -/
def httpCodeError (code : Int) (msg : String) : Response :=
  httpError (.withStatus code (.basic msg))

/-! ## Middleware chain (src/server.go lines 39-57)

A handler is modelled by the trace of observations it makes on a request: a
middleware that observes the request and delegates inward prepends its
label. `buildChain` transliterates the once-guarded loop in `ServeHTTP`:
`handler = mux; for i := len(middlewares)-1; i >= 0; i-- { handler =
middlewares[i](handler) }`. -/

abbrev TraceHandler : Type := List String

abbrev Middleware : Type := TraceHandler → TraceHandler

/-- Middleware that observes the request first (records its label) and then
runs the handler it wraps. -/
def observeMw (label : String) : Middleware := fun inner => label :: inner

/-- The composition loop of `ServeHTTP`: iterate the registration list from
the last index down to 0, each step wrapping the handler built so far. -/
def buildChain (mws : List Middleware) (mux : TraceHandler) : TraceHandler :=
  mws.reverse.foldl (fun h m => m h) mux

def routerTrace : TraceHandler := ["router"]

/-! ## Permission combinator (src/server.go lines 206-232)

A predicate is modelled by the boolean it returns for the request at hand;
evaluation counts how many predicates were invoked, to express
short-circuiting. -/

/-- Sequential loop of `checkPermFuncs`: stop at the first predicate that
returns true. Returns (decision, number of predicates invoked). -/
def permLoop : List Bool → Bool × Nat
  | [] => (false, 0)
  | b :: rest =>
    if b then (true, 1)
    else
      let r := permLoop rest
      (r.1, r.2 + 1)

/-- Transliterates `checkPermFuncs`: with a non-empty list at least one
predicate must succeed; with no predicates the request is allowed. -/
def checkPermFuncs (ps : List Bool) : Bool × Nat :=
  if 0 < ps.length then permLoop ps else (true, 0)

/-- Transliterates `handleWithPerm`: run the permission check; on failure
answer `httpCodeError(w, http.StatusUnauthorized, "permission denied")`
without invoking the wrapped handler. Returns the response, the number of
predicates invoked, and the number of times the wrapped handler ran. -/
def handleWithPerm (ps : List Bool) (handlerResp : Response) :
    Response × Nat × Nat :=
  let c := checkPermFuncs ps
  if c.1 then (handlerResp, c.2, 1)
  else (httpCodeError 401 "permission denied", c.2, 0)

/-! ## Handler shape validator (src/server.go lines 174-204)

A registered value is modelled by the features `checkHandler` inspects: nil
interface, non-function values (with a flag for whether the dynamic type
implements `http.Handler`), and function values carrying whether the type
implements `http.Handler` (e.g. `http.HandlerFunc`), whether the function
value is nil, and the structural parameter/result type lists. -/

inductive GoType : Type where
  | reqPtr
  | httpReqPtr
  | respWriter
  | errorTy
  | tyInt
  | tyStr
  | tyAny
deriving DecidableEq, Repr

inductive GoCallable : Type where
  | nilAny
  | nonFunc (implHandler : Bool)
  | fn (implHandler : Bool) (isNilFn : Bool)
       (params : List GoType) (results : List GoType)
deriving DecidableEq, Repr

/-- Transliterates `checkHandler`: `none` means the value is accepted, `some
msg` means registration panics with that diagnostic. The checks appear in
source order: nil interface; `http.Handler` assertion; function kind; arity
1 or 2; non-nil function value; exact `func(http.ResponseWriter,
*http.Request)` assertion; first parameter `*api.Request`; exactly two
results; second result exactly `error`. -/
def checkHandler : GoCallable → Option String
  | .nilAny => some "error: nil handler"
  | .nonFunc implH =>
    if implH then none
    else some "handler must be a function or a http.Handler"
  | .fn implH isNilFn params results =>
    if implH then none
    else if params.length < 1 ∨ params.length > 2 then
      some "handler function must have 1 or 2 arguments"
    else if isNilFn then some "handler must be a non-nil function"
    else if params = [.respWriter, .httpReqPtr] ∧ results = [] then none
    else if params.head? ≠ some .reqPtr then
      some "handler: first argument of function must have type *api.Request"
    else if results.length ≠ 2 then
      some "handler: function must have 2 return values"
    else if results.get? 1 ≠ some .errorTy then
      some "handler: second return value of function must have type error"
    else none

/-- Spec-side definition of the four accepted shapes, stated from the
claim's words: a value of a type implementing `http.Handler` (whether or
not it is a function); a non-nil `func(http.ResponseWriter,
*http.Request)`; a non-nil `func(*Request) (Output, error)`; a non-nil
`func(*Request, Input) (Output, error)` with arbitrary Input and Output
types. -/
inductive AcceptedShape : GoCallable → Prop where
  | rawNonFunc : AcceptedShape (.nonFunc true)
  | rawFn (isNilFn : Bool) (params results : List GoType) :
      AcceptedShape (.fn true isNilFn params results)
  | httpFunc : AcceptedShape (.fn false false [.respWriter, .httpReqPtr] [])
  | oneArg (out : GoType) :
      AcceptedShape (.fn false false [.reqPtr] [out, .errorTy])
  | twoArg (inp out : GoType) :
      AcceptedShape (.fn false false [.reqPtr, inp] [out, .errorTy])

/-- The seven panic diagnostics of `checkHandler`, in checking order. -/
def checkHandlerDiagnostics : List String :=
  [ "error: nil handler",
    "handler must be a function or a http.Handler",
    "handler function must have 1 or 2 arguments",
    "handler must be a non-nil function",
    "handler: first argument of function must have type *api.Request",
    "handler: function must have 2 return values",
    "handler: second return value of function must have type error" ]

/-! ## JSON values and strict decoding (src/server.go lines 283-299)

JSON bodies are modelled two levels deep: a top-level value whose object
fields and array elements are primitive, which covers every body the
dispatch path distinguishes. Input types (the declared second parameter)
are Go `int`, `string`, or a struct with `int`/`string` fields. -/

inductive JPrim : Type where
  | pnull
  | pbool (b : Bool)
  | pnum (n : Int)
  | pstr (s : String)
deriving DecidableEq, Repr

inductive Jval : Type where
  | jnull
  | jbool (b : Bool)
  | jnum (n : Int)
  | jstr (s : String)
  | jarr (elems : List JPrim)
  | jobj (fields : List (String × JPrim))
deriving DecidableEq, Repr

inductive FTy : Type where
  | fInt
  | fStr
deriving DecidableEq, Repr

inductive ITy : Type where
  | iInt
  | iStr
  | iStruct (fields : List (String × FTy))
deriving DecidableEq, Repr

inductive GVal : Type where
  | gInt (n : Int)
  | gStr (s : String)
  | gStruct (fields : List (String × GVal))

def lookupA {α : Type} : List (String × α) → String → Option α
  | [], _ => none
  | (k', v) :: rest, k => if k' = k then some v else lookupA rest k

def setAssoc {α : Type} : List (String × α) → String → α → List (String × α)
  | [], k, v => [(k, v)]
  | (k', v') :: rest, k, v =>
    if k' = k then (k, v) :: rest else (k', v') :: setAssoc rest k v

/-- Zero value of a field type (`reflect.New` yields the zero value). -/
def FTy.zero : FTy → GVal
  | .fInt => .gInt 0
  | .fStr => .gStr ""

/-- Zero value of an input type. -/
def ITy.zero : ITy → GVal
  | .iInt => .gInt 0
  | .iStr => .gStr ""
  | .iStruct fs => .gStruct (fs.map fun p => (p.1, p.2.zero))

/-- Decoding one primitive into a field of the given type, per
`encoding/json`: JSON null leaves the field unchanged (`none`); a matching
primitive stores it; anything else is an unmarshal type error. -/
def decodeField : FTy → JPrim → Except String (Option GVal)
  | _, .pnull => .ok none
  | .fInt, .pnum n => .ok (some (.gInt n))
  | .fInt, _ => .error "json: cannot unmarshal value into Go struct field of type int"
  | .fStr, .pstr s => .ok (some (.gStr s))
  | .fStr, _ => .error "json: cannot unmarshal value into Go struct field of type string"

/-- Object-field loop of the strict decoder: keys are processed in order;
with `DisallowUnknownFields` a key that matches no declared field is a
decode error; known keys decode against the declared field type. -/
def decodeFields (fs : List (String × FTy)) :
    List (String × JPrim) → List (String × GVal) →
    Except String (List (String × GVal))
  | [], acc => .ok acc
  | (k, jv) :: rest, acc =>
    match lookupA fs k with
    | none => .error ("json: unknown field \"" ++ k ++ "\"")
    | some ft =>
      match decodeField ft jv with
      | .error m => .error m
      | .ok none => decodeFields fs rest acc
      | .ok (some gv) => decodeFields fs rest (setAssoc acc k gv)

/-- Strict decode through `decoder.Decode(&input)` where `input` is an
interface holding the freshly allocated `*T` from `reflect.New(tinput)`: a
top-level JSON null sets the interface itself to nil and reports no error
(the `.ok none` case — the decoder stops at the interface when the held
pointer's element is not itself a pointer); any other value is decoded into
the new `T` with `DisallowUnknownFields` in force, yielding `.ok (some v)`
or a decode error. -/
def decodeInto : ITy → Jval → Except String (Option GVal)
  | _, .jnull => .ok none
  | .iInt, .jnum n => .ok (some (.gInt n))
  | .iInt, _ => .error "json: cannot unmarshal value into Go value of type int"
  | .iStr, .jstr s => .ok (some (.gStr s))
  | .iStr, _ => .error "json: cannot unmarshal value into Go value of type string"
  | .iStruct fs, .jobj kvs =>
    match decodeFields fs kvs (fs.map fun p => (p.1, p.2.zero)) with
    | .error m => .error m
    | .ok fields => .ok (some (.gStruct fields))
  | .iStruct _, _ => .error "json: cannot unmarshal value into Go value of type struct"

/-- Does the body contain an object key that matches no field of the input
type? (For non-struct input types every object key matches no field.) -/
def hasUnknownKey (ty : ITy) (v : Jval) : Bool :=
  match v with
  | .jobj kvs =>
    match ty with
    | .iStruct fs => kvs.any fun p => (lookupA fs p.1).isNone
    | _ => !kvs.isEmpty
  | _ => false

/-! ## Handler outputs and response encoding (src/server.go lines 301-323)

Outputs of a handler (`any` in Go), restricted to the shapes the encoder
distinguishes: strings, byte slices, JSON-encodable values, and the
`outWithHTTPStatus` wrapper from the status-carrying revision. -/

inductive OVal : Type where
  | ostr (s : String)
  | obytes (bytes : List Nat)
  | oint (n : Int)
  | ojson (v : Jval)
  | owrap (status : Int) (inner : OVal)
deriving DecidableEq, Repr

/-- Transliterates `OutputWithStatus(status, out)`: wrap the output in an
`outWithHTTPStatus` carrying the status. -/
def OutputWithStatus (status : Int) (out : OVal) : OVal :=
  .owrap status out

/-- Go interface check `out.(HTTPStatus)` on an output value: only the
`outWithHTTPStatus` wrapper implements `HTTPStatus() int`. -/
def outHTTPStatus : OVal → Option Int
  | .owrap s _ => some s
  | _ => none

/-- Result of `json.Marshal` on an output, at the level of JSON values:
`outWithHTTPStatus.MarshalJSON` returns `json.Marshal(o.output)`, so the
wrapper marshals exactly as the value it wraps; byte slices marshal as
strings (base64 in Go, kept abstract here). -/
def marshalO : OVal → Jval
  | .ostr s => .jstr s
  | .obytes _ => .jstr "base64"
  | .oint n => .jnum n
  | .ojson v => v
  | .owrap _ inner => marshalO inner

def quoteJ (s : String) : String := "\"" ++ s ++ "\""

def showJPrim : JPrim → String
  | .pnull => "null"
  | .pbool true => "true"
  | .pbool false => "false"
  | .pnum n => toString n
  | .pstr s => quoteJ s

/-- Deterministic rendering of a JSON value to its wire bytes (string
escaping kept trivial: applied equally to both sides of any comparison). -/
def showJval : Jval → String
  | .jnull => "null"
  | .jbool true => "true"
  | .jbool false => "false"
  | .jnum n => toString n
  | .jstr s => quoteJ s
  | .jarr xs => "[" ++ String.intercalate "," (xs.map showJPrim) ++ "]"
  | .jobj kvs =>
    "\x7b" ++
      String.intercalate ","
        (kvs.map fun p => quoteJ p.1 ++ ":" ++ showJPrim p.2) ++ "\x7d"

/-- Transliterates `httpInfo(w, msg)`: `httpMessage(w, http.StatusOK,
"info", fmt.Sprint(msg))`. -/
def httpInfo (msg : String) : Response := httpMessage 200 "info" msg

/-- Transliterates `httpJSON(w, output)` as called from `Handler` (no
variadic status codes supplied): Content-Type `application/json`,
`WriteHeader(http.StatusOK)`, then `json.Encoder.Encode(output)`, which
honours `MarshalJSON` and appends a newline. -/
def httpJSON (out : OVal) : Response :=
  { status := 200, contentType := some "application/json",
    body := .jsonBody (showJval (marshalO out) ++ "\n") }

/-- Success-path encoding at the end of the `Handler` closure: a string
output goes through `httpInfo`; a byte slice is written verbatim by
`w.Write` (implicit status 200, no Content-Type set); anything else goes
through `httpJSON`. -/
def encodeOutput : OVal → Response
  | .ostr s => httpInfo s
  | .obytes bs => { status := 200, contentType := none, body := .raw bs }
  | out => httpJSON out

/-! ## The dispatch adapter for the 2-argument shape
(src/server.go lines 277-323, `nargs == 2` branch)

A request carries the declared content length and its body; `none` stands
for a body that is not well-formed JSON. The handler function is a Lean
function from the decoded input to (output, optional error). The adapter
either writes a response (recorded with the number of times the handler
ran) or panics: this revision has no nil guard after `Decode(&input)`, so a
top-level null body leaves `input` nil and `reflect.ValueOf(input).Elem()`
panics on the zero Value (the part_000 revision instead guards
`input == nil` with a 400). -/

structure HReq : Type where
  contentLength : Int
  body : Option Jval

inductive AdapterResult : Type where
  | respond (resp : Response) (handlerCalls : Nat)
  | panicked (msg : String)
deriving DecidableEq, Repr

/-- Decode of the request body stream by `json.Decoder`: a body that is not
well-formed JSON is a syntax error; otherwise the value is decoded strictly
into the input type, with `.ok none` marking the top-level-null case that
nils the interface. -/
def decodeBody (ty : ITy) : Option Jval → Except String (Option GVal)
  | none => .error "invalid character in body"
  | some v => decodeInto ty v

/-- Transliterates the closure `Handler` builds for a handler of shape
`func(*Request, Input) (Output, error)`: permission check first; then the
zero-content-length guard answering `httpError(w, "no body supplied")`;
then strict body decoding, a failure answering `httpError(w, "parsing
body: %w", err)`; a null body that nils `input` makes the subsequent
`reflect.ValueOf(input).Elem()` panic before the call; otherwise the call
runs, its error (if any) goes through `httpError` and its output is
otherwise encoded. -/
def handlerTwoArg (ps : List Bool) (ty : ITy)
    (f : GVal → OVal × Option GoErr) (r : HReq) : AdapterResult :=
  if !(checkPermFuncs ps).1 then
    .respond (httpCodeError 401 "permission denied") 0
  else if r.contentLength = 0 then
    .respond (httpError (.basic "no body supplied")) 0
  else
    match decodeBody ty r.body with
    | .error m => .respond (httpError (.wrapf "parsing body: " (.basic m))) 0
    | .ok none => .panicked "reflect: call of reflect.Value.Elem on zero Value"
    | .ok (some gv) =>
      match f gv with
      | (_, some e) => .respond (httpError e) 1
      | (out, none) => .respond (encodeOutput out) 1

/-! ## Value store and request scope (src/server.go lines 110-165)

The server-level store is `Server.values` (a Go map, modelled as an
association list whose `storeSet` replaces an existing key, like map
assignment). `newRequest` seeds a fresh request-scoped map by calling
`Request.Set` for every server pair; `Request.Set` mutates only the map
held in that request's own context (freshly allocated on the request's
first `Set`), which is what the per-request stores of `World` model. -/

abbrev Store (V : Type) : Type := List (String × V)

/-- Map assignment `m[key] = value`: replace the existing entry or append. -/
def storeSet {V : Type} : Store V → String → V → Store V
  | [], k, v => [(k, v)]
  | (k', v') :: rest, k, v =>
    if k' = k then (k, v) :: rest else (k', v') :: storeSet rest k v

/-- Map lookup `m[key]`, `nil` when absent. -/
def storeGet {V : Type} : Store V → String → Option V
  | [], _ => none
  | (k', v) :: rest, k => if k' = k then some v else storeGet rest k

/-- Transliterates `Server.newRequest`: start from a request with no
context map and `Request.Set` every key/value pair of the server store. -/
def newRequestStore {V : Type} (serverValues : Store V) : Store V :=
  serverValues.foldl (fun m p => storeSet m p.1 p.2) ([] : Store V)

/-- Snapshot of a serving system: the server-level store plus one
request-scoped store per in-flight request. -/
structure World (V : Type) : Type where
  server : Store V
  reqs : List (Store V)

/-- Arrival of a new request: `ServeHTTP` calls `newRequest`, seeding that
request's fresh store from the server store. -/
def worldSpawn {V : Type} (w : World V) : World V :=
  { w with reqs := w.reqs ++ [newRequestStore w.server] }

/-- Transliterates `Request.Set` performed while processing request `i`:
only that request's own context map is written. -/
def worldReqSet {V : Type} (w : World V) (i : Nat) (k : String) (v : V) :
    World V :=
  { w with reqs := w.reqs.set i (storeSet (w.reqs.getD i []) k v) }

/-- Transliterates `Request.Get` on request `i`. -/
def worldReqGet {V : Type} (w : World V) (i : Nat) (k : String) : Option V :=
  storeGet (w.reqs.getD i []) k

/-- Transliterates `Server.Get`. -/
def worldServerGet {V : Type} (w : World V) (k : String) : Option V :=
  storeGet w.server k

/-! ## Listener startup (src/server.go lines 68-108)

`Serve` is modelled by its startup phase: address parsing, binding through
an environment oracle `bindOk`, and the rollback loop that closes every
already-opened listener on the first failure. Each `go http.Serve(l, s)`
launch is recorded as a `serveStarted` event. A `none` outcome means the
loop bound everything and reached the blocking receive (serving). -/

inductive NetEv : Type where
  | bound (network addr : String)
  | closed (network addr : String)
  | serveStarted (network addr : String)
deriving DecidableEq, Repr

/-- Split a character list at the first `!`, the character-level semantics
of `strings.Cut(ad, "!")`. -/
def cutBangAux : List Char → Option (List Char × List Char)
  | [] => none
  | c :: rest =>
    if c = '!' then some ([], rest)
    else
      match cutBangAux rest with
      | none => none
      | some (pre, post) => some (c :: pre, post)

/-- Transliterates `strings.Cut(ad, "!")`: the part before and after the
first `!` when one is present. -/
def cutBang (ad : String) : Option (String × String) :=
  match cutBangAux ad.toList with
  | none => none
  | some (pre, post) => some (pre.asString, post.asString)

/-- Address recognition of `Serve`: explicit `network!addr`, else `unix`
for an address beginning with `/`, else `tcp` when the address contains a
colon. -/
def parseAddr (ad : String) : Option (String × String) :=
  match cutBang ad with
  | some nw_a => some nw_a
  | none =>
    if ad.toList.head? = some '/' then some ("unix", ad)
    else if ad.toList.contains ':' then some ("tcp", ad) else none

def closeAll (opened : List (String × String)) : List NetEv :=
  opened.map fun p => .closed p.1 p.2

/-- Body of the `Serve` loop: `opened` accumulates the listeners bound so
far; an unrecognized address or a failed bind closes them all and returns
the error; a successful bind records the listener and launches its serve
goroutine. -/
def serveLoop (bindOk : String → String → Bool) :
    List String → List (String × String) → List NetEv →
    List NetEv × Option String
  | [], _, evs => (evs, none)
  | ad :: rest, opened, evs =>
    match parseAddr ad with
    | none =>
      (evs ++ closeAll opened, some ("Serve: " ++ ad ++ ": unrecognized address"))
    | some (nw, a) =>
      if bindOk nw a then
        serveLoop bindOk rest (opened ++ [(nw, a)])
          (evs ++ [.bound nw a, .serveStarted nw a])
      else
        (evs ++ closeAll opened,
         some ("listen " ++ nw ++ " " ++ a ++ ": bind failed"))

/-- Transliterates the startup phase of `Server.Serve(addrs...)`. -/
def serve (bindOk : String → String → Bool) (addrs : List String) :
    List NetEv × Option String :=
  if addrs.length = 0 then
    ([], some "Serve: no addresses to listen for connections")
  else serveLoop bindOk addrs [] []

/-- Listeners still open after a trace of events: bound adds, closed
removes. -/
def stillOpen : List NetEv → List (String × String) → List (String × String)
  | [], acc => acc
  | .bound nw a :: rest, acc => stillOpen rest (acc ++ [(nw, a)])
  | .closed nw a :: rest, acc => stillOpen rest (acc.erase (nw, a))
  | .serveStarted _ _ :: rest, acc => stillOpen rest acc

/-! ## Spec-side relations for the error taxonomy -/

/-- The error, or an error it wraps, implements `HTTPStatus() int` and
declares status `s` (the first such error in the unwrap order, which is
the one `errors.As` finds). -/
inductive DeclaresStatus : GoErr → Int → Prop where
  | here (s : Int) (e : GoErr) : DeclaresStatus (.withStatus s e) s
  | unwrap (p : String) {e : GoErr} {s : Int} :
      DeclaresStatus e s → DeclaresStatus (.wrapf p e) s

/-- The error matches the `sql.ErrNoRows` sentinel through its unwrap
chain, as `errors.Is` checks. -/
inductive WrapsNoRows : GoErr → Prop where
  | here : WrapsNoRows .sqlNoRows
  | status (s : Int) {e : GoErr} :
      WrapsNoRows e → WrapsNoRows (.withStatus s e)
  | unwrap (p : String) {e : GoErr} :
      WrapsNoRows e → WrapsNoRows (.wrapf p e)

/-! ## Helper lemmas -/

theorem buildChain_nil (base : TraceHandler) : buildChain [] base = base := rfl

theorem buildChain_cons (m : Middleware) (mws : List Middleware)
    (base : TraceHandler) :
    buildChain (m :: mws) base = m (buildChain mws base) := by
  simp [buildChain, List.foldl_append]

theorem buildChain_observe (ls : List String) (base : TraceHandler) :
    buildChain (ls.map observeMw) base = ls ++ base := by
  induction ls with
  | nil => rfl
  | cons l rest ih => rw [List.map_cons, buildChain_cons, ih]; rfl

theorem checkHandler_none_of_accepted {c : GoCallable} (h : AcceptedShape c) :
    checkHandler c = none := by
  cases h with
  | rawNonFunc => rfl
  | rawFn isNilFn params results => rfl
  | httpFunc => rfl
  | oneArg out => rfl
  | twoArg inp out => rfl

theorem accepted_of_checkHandler_none {c : GoCallable}
    (h : checkHandler c = none) : AcceptedShape c := by
  match c with
  | .nilAny => exact absurd h (by simp [checkHandler])
  | .nonFunc true => exact .rawNonFunc
  | .nonFunc false => exact absurd h (by simp [checkHandler])
  | .fn true isNilFn ps rs => exact .rawFn isNilFn ps rs
  | .fn false true ps rs =>
    exfalso
    revert h
    simp only [checkHandler]
    rw [if_neg (by simp : ¬((false : Bool) = true))]
    split <;> simp
  | .fn false false ps rs =>
    simp only [checkHandler] at h
    rw [if_neg (by simp : ¬((false : Bool) = true))] at h
    by_cases hA : (ps.length < 1 ∨ ps.length > 2)
    · rw [if_pos hA] at h; exact Option.noConfusion h
    rw [if_neg hA] at h
    rw [if_neg (by simp : ¬((false : Bool) = true))] at h
    by_cases hRaw : (ps = [GoType.respWriter, GoType.httpReqPtr] ∧ rs = ([] : List GoType))
    · obtain ⟨hp, hr⟩ := hRaw; subst hp; subst hr; exact .httpFunc
    rw [if_neg hRaw] at h
    by_cases hHd : ps.head? ≠ some GoType.reqPtr
    · rw [if_pos hHd] at h; exact Option.noConfusion h
    rw [if_neg hHd] at h
    have hHd' : ps.head? = some GoType.reqPtr := not_not.mp hHd
    by_cases hR2 : rs.length ≠ 2
    · rw [if_pos hR2] at h; exact Option.noConfusion h
    rw [if_neg hR2] at h
    have hR2' : rs.length = 2 := not_not.mp hR2
    by_cases hE : rs.get? 1 ≠ some GoType.errorTy
    · rw [if_pos hE] at h; exact Option.noConfusion h
    have hE' : rs.get? 1 = some GoType.errorTy := not_not.mp hE
    push_neg at hA
    rcases ps with _ | ⟨p1, ps1⟩
    · simp at hHd'
    have hp1 : p1 = GoType.reqPtr := by simpa using hHd'
    subst hp1
    rcases rs with _ | ⟨r1, _ | ⟨r2, rs2⟩⟩
    · simp at hR2'
    · simp at hR2'
    have hr2 : r2 = GoType.errorTy := by simpa using hE'
    subst hr2
    have hrs2 : rs2 = [] := by
      simp only [List.length_cons] at hR2'
      exact List.eq_nil_of_length_eq_zero (by omega)
    subst hrs2
    rcases ps1 with _ | ⟨p2, ps2⟩
    · exact .oneArg r1
    have hps2 : ps2 = [] := by
      obtain ⟨-, h2⟩ := hA
      simp only [List.length_cons] at h2
      exact List.eq_nil_of_length_eq_zero (by omega)
    subst hps2
    exact .twoArg p2 r1

theorem checkHandler_some_mem (c : GoCallable) (msg : String)
    (h : checkHandler c = some msg) : msg ∈ checkHandlerDiagnostics := by
  cases c with
  | nilAny =>
    simp only [checkHandler] at h
    injection h with h2; subst h2; decide
  | nonFunc implH =>
    cases implH with
    | true => exact Option.noConfusion h
    | false =>
      simp only [checkHandler] at h
      injection h with h2; subst h2; decide
  | fn implH isNilFn ps rs =>
    cases implH with
    | true => exact Option.noConfusion h
    | false =>
      simp only [checkHandler] at h
      repeat' split at h
      all_goals
        first
          | exact Option.noConfusion h
          | (injection h with h2; subst h2; decide)

/-! ## Claim C2: handler shape validation -/

/-- C2: registration panics if and only if the value is not one of the four
accepted shapes; every panic carries one of the seven diagnostics, which
are pairwise distinct, and every value matching an accepted shape is
accepted without panicking. -/
theorem claim2_checkHandler_accepts_iff_shape :
    (∀ c : GoCallable, checkHandler c = none ↔ AcceptedShape c) ∧
    checkHandlerDiagnostics.Nodup ∧
    (∀ (c : GoCallable) (msg : String),
        checkHandler c = some msg → msg ∈ checkHandlerDiagnostics) :=
  ⟨fun _ => ⟨accepted_of_checkHandler_none, checkHandler_none_of_accepted⟩,
   by decide,
   checkHandler_some_mem⟩

/-- Witness for C2 at concrete inputs: a two-argument function
`func(*Request, int) (string, error)` is accepted, and a nil one-argument
function value draws the non-nil-function diagnostic, which is among the
seven. -/
theorem claim2_witness :
    AcceptedShape (.fn false false [.reqPtr, .tyInt] [.tyStr, .errorTy]) ∧
    "handler must be a non-nil function" ∈ checkHandlerDiagnostics :=
  ⟨(claim2_checkHandler_accepts_iff_shape.1 _).mp rfl,
   claim2_checkHandler_accepts_iff_shape.2.2
     (.fn false true [.reqPtr] [.tyInt, .errorTy]) _ rfl⟩

/-! ## Claim C1: middleware composition order -/

/-- C1 counterexample: for middlewares registered in the order [A, B], the
claim predicts that B (the last registered) is outermost and observes the
request first, i.e. trace ["B", "A", "router"]. The composition loop of
`ServeHTTP` actually produces ["A", "B", "router"]: the first-registered
middleware is the outermost wrapper. -/
theorem claim1_counterexample :
    buildChain [observeMw "A", observeMw "B"] routerTrace
        = ["A", "B", "router"] ∧
    buildChain [observeMw "A", observeMw "B"] routerTrace
        ≠ ["B", "A", "router"] := by
  exact ⟨rfl, by decide⟩

/-- C1 amended: for middlewares [m1, ..., mn] registered in that order, the
composed handler has the first-registered middleware m1 as the outermost
wrapper: an incoming request is observed by m1 first, then m2, and so on up
to mn, with the router last. -/
theorem claim1_first_registered_outermost (ls : List String) :
    buildChain (ls.map observeMw) routerTrace = ls ++ ["router"] :=
  buildChain_observe ls routerTrace

/-! ## Claim C3: error to status mapping -/

theorem asHTTPStatus_eq_some_iff {e : GoErr} {s : Int} :
    asHTTPStatus e = some s ↔ DeclaresStatus e s := by
  induction e with
  | basic m => exact ⟨fun h => (nomatch h), fun h => (nomatch h)⟩
  | sqlNoRows => exact ⟨fun h => (nomatch h), fun h => (nomatch h)⟩
  | withStatus s' e ih =>
    constructor
    · intro h
      have hs : s' = s := by simpa [asHTTPStatus] using h
      subst hs
      exact .here s' e
    · intro h
      cases h with
      | here => rfl
  | wrapf p e ih =>
    constructor
    · intro h
      exact .unwrap p (ih.mp (by simpa [asHTTPStatus] using h))
    · intro h
      cases h with
      | unwrap _ hd => simpa [asHTTPStatus] using ih.mpr hd

theorem isNoRows_eq_true_iff {e : GoErr} :
    isNoRows e = true ↔ WrapsNoRows e := by
  induction e with
  | basic m => exact ⟨fun h => (nomatch h), fun h => (nomatch h)⟩
  | sqlNoRows => exact ⟨fun _ => .here, fun _ => rfl⟩
  | withStatus s e ih =>
    constructor
    · intro h
      exact .status s (ih.mp (by simpa [isNoRows] using h))
    · intro h
      cases h with
      | status _ hd => simpa [isNoRows] using ih.mpr hd
  | wrapf p e ih =>
    constructor
    · intro h
      exact .unwrap p (ih.mp (by simpa [isNoRows] using h))
    · intro h
      cases h with
      | unwrap _ hd => simpa [isNoRows] using ih.mpr hd

/-- C3: a handler error that (itself or through wrapping) declares an HTTP
status gets that status verbatim with its own message; otherwise the
`sql.ErrNoRows` sentinel yields 404 with the generic "not found" text
replacing the original; otherwise the status is 400 with the error's
message; and in every case the body is the single-field JSON error
object. -/
theorem claim3_httpError_status_mapping (e : GoErr) :
    (∀ s : Int, DeclaresStatus e s →
        httpError e = { status := s, contentType := some "application/json",
                        body := .message "error" e.message }) ∧
    ((∀ s : Int, ¬ DeclaresStatus e s) → WrapsNoRows e →
        httpError e = { status := 404, contentType := some "application/json",
                        body := .message "error" "not found" }) ∧
    ((∀ s : Int, ¬ DeclaresStatus e s) → ¬ WrapsNoRows e →
        httpError e = { status := 400, contentType := some "application/json",
                        body := .message "error" e.message }) ∧
    (∃ m : String, (httpError e).body = .message "error" m) := by
  refine ⟨?_, ?_, ?_, ?_⟩
  · intro s hs
    have h1 : asHTTPStatus e = some s := asHTTPStatus_eq_some_iff.mpr hs
    simp [httpError, h1, httpMessage]
  · intro hns hnr
    have h1 : asHTTPStatus e = none := by
      cases hcase : asHTTPStatus e with
      | none => rfl
      | some s => exact absurd (asHTTPStatus_eq_some_iff.mp hcase) (hns s)
    have h2 : isNoRows e = true := isNoRows_eq_true_iff.mpr hnr
    simp [httpError, h1, h2, httpMessage]
  · intro hns hnr
    have h1 : asHTTPStatus e = none := by
      cases hcase : asHTTPStatus e with
      | none => rfl
      | some s => exact absurd (asHTTPStatus_eq_some_iff.mp hcase) (hns s)
    have h2 : isNoRows e = false := by
      cases hcase : isNoRows e with
      | false => rfl
      | true => exact absurd (isNoRows_eq_true_iff.mp hcase) hnr
    simp [httpError, h1, h2, httpMessage]
  · unfold httpError
    cases asHTTPStatus e with
    | some s => exact ⟨e.message, rfl⟩
    | none =>
      by_cases h2 : isNoRows e
      · exact ⟨"not found", by simp [h2, httpMessage]⟩
      · exact ⟨e.message, by simp [h2, httpMessage]⟩

/-- Witness for C3: an error declaring status 418 gets 418 with its own
text; a wrapped `sql.ErrNoRows` with no declared status gets 404 and the
generic "not found"; a plain error gets 400 with its text. -/
theorem claim3_witness :
    httpError (.withStatus 418 (.basic "teapot"))
      = { status := 418, contentType := some "application/json",
          body := .message "error" "teapot" } ∧
    httpError (.wrapf "query: " .sqlNoRows)
      = { status := 404, contentType := some "application/json",
          body := .message "error" "not found" } ∧
    httpError (.basic "boom")
      = { status := 400, contentType := some "application/json",
          body := .message "error" "boom" } :=
  ⟨(claim3_httpError_status_mapping _).1 418 (.here 418 (.basic "teapot")),
   (claim3_httpError_status_mapping _).2.1
     (fun _ hs => by cases hs with | unwrap _ hd => exact nomatch hd)
     (.unwrap "query: " .here),
   (claim3_httpError_status_mapping _).2.2.1
     (fun _ hs => nomatch hs) (fun hr => nomatch hr)⟩

/-! ## Claim C4: permission gating -/

theorem permLoop_decision (ps : List Bool) : (permLoop ps).1 = ps.any id := by
  induction ps with
  | nil => rfl
  | cons b rest ih => cases b <;> simp [permLoop, ih]

theorem permLoop_count_all_false {ps : List Bool} (h : true ∉ ps) :
    (permLoop ps).2 = ps.length := by
  induction ps with
  | nil => rfl
  | cons b rest ih =>
    cases b with
    | false =>
      have hr : true ∉ rest := fun hm => h (List.mem_cons_of_mem _ hm)
      simp [permLoop, ih hr]
    | true => exact absurd (List.mem_cons_self _ _) h

theorem permLoop_count_first_true {ps : List Bool} (h : true ∈ ps) :
    (permLoop ps).2 = (ps.takeWhile (fun b => !b)).length + 1 := by
  induction ps with
  | nil => exact absurd h (List.not_mem_nil _)
  | cons b rest ih =>
    cases b with
    | false =>
      have hr : true ∈ rest := by simpa using h
      simp [permLoop, List.takeWhile, ih hr]
    | true => simp [permLoop, List.takeWhile]

theorem checkPermFuncs_pos {ps : List Bool} (h : ps ≠ []) :
    checkPermFuncs ps = permLoop ps := by
  unfold checkPermFuncs
  rw [if_pos (List.length_pos.mpr h)]

theorem any_id_eq_true_iff (ps : List Bool) : ps.any id = true ↔ true ∈ ps := by
  induction ps with
  | nil => simp
  | cons b rest ih => cases b <;> simp [ih]

/-- C4: with zero predicates the handler always executes; with one or more
predicates the handler executes exactly once if and only if some predicate
returns true; evaluation short-circuits after the first success, so
exactly (length of the false prefix) + 1 predicates are invoked; and when
every predicate returns false the handler never runs and the response is
the 401 permission-denied error body, after invoking all predicates. -/
theorem claim4_permission_gating (ps : List Bool) (resp : Response) :
    (ps = [] → handleWithPerm ps resp = (resp, 0, 1)) ∧
    (ps ≠ [] → ((handleWithPerm ps resp).2.2 = 1 ↔ true ∈ ps)) ∧
    (true ∈ ps →
        handleWithPerm ps resp
          = (resp, (ps.takeWhile (fun b => !b)).length + 1, 1)) ∧
    (ps ≠ [] → true ∉ ps →
        handleWithPerm ps resp
          = ({ status := 401, contentType := some "application/json",
               body := .message "error" "permission denied" }, ps.length, 0)) := by
  refine ⟨?_, ?_, ?_, ?_⟩
  · intro h; subst h; rfl
  · intro h
    rw [show handleWithPerm ps resp
          = (if (checkPermFuncs ps).1 then (resp, (checkPermFuncs ps).2, 1)
             else (httpCodeError 401 "permission denied",
                   (checkPermFuncs ps).2, 0)) from rfl]
    rw [checkPermFuncs_pos h, permLoop_decision]
    cases hany : ps.any id with
    | true =>
      simp only [if_pos rfl]
      exact iff_of_true rfl ((any_id_eq_true_iff ps).mp hany)
    | false =>
      simp only [Bool.false_eq_true, if_false]
      refine iff_of_false (by decide) fun hmem => ?_
      rw [(any_id_eq_true_iff ps).mpr hmem] at hany
      exact Bool.noConfusion hany
  · intro hmem
    have hne : ps ≠ [] := by rintro rfl; exact (List.not_mem_nil _) hmem
    have hany : ps.any id = true := (any_id_eq_true_iff ps).mpr hmem
    rw [show handleWithPerm ps resp
          = (if (checkPermFuncs ps).1 then (resp, (checkPermFuncs ps).2, 1)
             else (httpCodeError 401 "permission denied",
                   (checkPermFuncs ps).2, 0)) from rfl]
    rw [checkPermFuncs_pos hne]
    rw [show (permLoop ps).1 = true from (permLoop_decision ps).trans hany]
    rw [if_pos rfl, permLoop_count_first_true hmem]
  · intro hne hmem
    have hany : ps.any id = false := by
      cases hval : ps.any id with
      | false => rfl
      | true => exact absurd ((any_id_eq_true_iff ps).mp hval) hmem
    rw [show handleWithPerm ps resp
          = (if (checkPermFuncs ps).1 then (resp, (checkPermFuncs ps).2, 1)
             else (httpCodeError 401 "permission denied",
                   (checkPermFuncs ps).2, 0)) from rfl]
    rw [checkPermFuncs_pos hne]
    rw [show (permLoop ps).1 = false from (permLoop_decision ps).trans hany]
    rw [if_neg (by simp), permLoop_count_all_false hmem]
    rfl

/-- Witness for C4: with predicates [false, true, false] the handler runs
once and only the first two predicates are invoked; with [false, false]
the handler never runs, both predicates are invoked, and the response is
the 401 error body. -/
theorem claim4_witness :
    handleWithPerm [false, true, false] (httpInfo "ok")
        = (httpInfo "ok", 2, 1) ∧
    handleWithPerm [false, false] (httpInfo "ok")
        = ({ status := 401, contentType := some "application/json",
             body := .message "error" "permission denied" }, 2, 0) :=
  ⟨by simpa using
      (claim4_permission_gating [false, true, false] (httpInfo "ok")).2.2.1
        (by decide),
   by simpa using
      (claim4_permission_gating [false, false] (httpInfo "ok")).2.2.2
        (by decide) (by decide)⟩

/-! ## Claim C5: zero content length -/

/-- C5: for the two-argument handler shape, a request declaring zero
content length yields the 400 "no body supplied" error response and the
handler function is never invoked. -/
theorem claim5_empty_body_rejected (ps : List Bool) (ty : ITy)
    (f : GVal → OVal × Option GoErr) (r : HReq)
    (hperm : (checkPermFuncs ps).1 = true) (hlen : r.contentLength = 0) :
    handlerTwoArg ps ty f r
      = .respond { status := 400, contentType := some "application/json",
                   body := .message "error" "no body supplied" } 0 := by
  unfold handlerTwoArg
  rw [hperm]
  simp [hlen, httpError, asHTTPStatus, isNoRows, GoErr.message, httpMessage]

/-- Witness for C5 at a concrete handler and request. -/
theorem claim5_witness :
    handlerTwoArg [] (.iStruct [("a", .fInt)])
        (fun _ => (.ostr "unused", none))
        { contentLength := 0, body := some (.jobj [("a", .pnum 1)]) }
      = .respond { status := 400, contentType := some "application/json",
                   body := .message "error" "no body supplied" } 0 :=
  claim5_empty_body_rejected [] (.iStruct [("a", .fInt)])
    (fun _ => (.ostr "unused", none))
    { contentLength := 0, body := some (.jobj [("a", .pnum 1)]) } rfl rfl

/-! ## Claim C6: strict body decoding -/

theorem decodeFields_error_of_unknown (fs : List (String × FTy))
    (kvs : List (String × JPrim)) (acc : List (String × GVal))
    (h : ∃ p ∈ kvs, lookupA fs p.1 = none) :
    ∃ m, decodeFields fs kvs acc = .error m := by
  induction kvs generalizing acc with
  | nil =>
    obtain ⟨p, hp, -⟩ := h
    exact absurd hp (List.not_mem_nil _)
  | cons kv rest ih =>
    obtain ⟨k, jv⟩ := kv
    obtain ⟨p, hp, hnone⟩ := h
    rcases List.mem_cons.mp hp with rfl | hmem
    · exact ⟨"json: unknown field \"" ++ k ++ "\"",
        by simp [decodeFields, hnone]⟩
    · cases hl : lookupA fs k with
      | none =>
        exact ⟨"json: unknown field \"" ++ k ++ "\"",
          by simp [decodeFields, hl]⟩
      | some ft =>
        cases hd : decodeField ft jv with
        | error m => exact ⟨m, by simp [decodeFields, hl, hd]⟩
        | ok og =>
          cases og with
          | none =>
            obtain ⟨m, hm⟩ := ih acc ⟨p, hmem, hnone⟩
            exact ⟨m, by simp [decodeFields, hl, hd, hm]⟩
          | some gv =>
            obtain ⟨m, hm⟩ := ih (setAssoc acc k gv) ⟨p, hmem, hnone⟩
            exact ⟨m, by simp [decodeFields, hl, hd, hm]⟩

theorem decodeInto_error_of_unknown {ty : ITy} {v : Jval}
    (h : hasUnknownKey ty v = true) : ∃ m, decodeInto ty v = .error m := by
  cases v with
  | jnull => exact absurd h (by simp [hasUnknownKey])
  | jbool b => exact absurd h (by simp [hasUnknownKey])
  | jnum n => exact absurd h (by simp [hasUnknownKey])
  | jstr s => exact absurd h (by simp [hasUnknownKey])
  | jarr xs => exact absurd h (by simp [hasUnknownKey])
  | jobj kvs =>
    cases ty with
    | iInt => exact ⟨_, rfl⟩
    | iStr => exact ⟨_, rfl⟩
    | iStruct fs =>
      have hany : kvs.any (fun p => (lookupA fs p.1).isNone) = true := by
        simpa [hasUnknownKey] using h
      obtain ⟨p, hp, hnone⟩ := List.any_eq_true.mp hany
      have hx : lookupA fs p.1 = none := by simpa using hnone
      obtain ⟨m, hm⟩ :=
        decodeFields_error_of_unknown fs kvs (fs.map fun q => (q.1, q.2.zero))
          ⟨p, hp, hx⟩
      exact ⟨m, by simp [decodeInto, hm]⟩

/-- C6 counterexample: with input type `struct • a int •` the body `"x"`
(a JSON string, a non-empty body) contains no object key at all, so the
claim's "otherwise" clause asserts the handler is invoked; the code instead
answers a 400 parse error and never invokes the handler. -/
theorem claim6_counterexample :
    hasUnknownKey (.iStruct [("a", .fInt)]) (.jstr "x") = false ∧
    handlerTwoArg [] (.iStruct [("a", .fInt)])
        (fun _ => (.ostr "ran", none))
        { contentLength := 3, body := some (.jstr "x") }
      = .respond { status := 400, contentType := some "application/json",
                   body := .message "error"
                     "parsing body: json: cannot unmarshal value into Go value of type struct" }
          0 :=
  ⟨rfl, rfl⟩

/-- C6 amended: for the two-argument shape with a non-empty body, the body
is decoded strictly into a fresh value of the input type; a body with an
object key matching no field is always a decode error; every decode error
yields a 400 response whose message begins with "parsing body" with the
handler never invoked; when decoding succeeds with a non-null body the
handler is invoked exactly once with the decoded value; and a body that is
the top-level JSON literal null decodes without error to a nil interface,
after which the adapter panics in `reflect.Value.Elem` before the handler
is ever invoked. -/
theorem claim6_strict_decoding (ps : List Bool) (ty : ITy)
    (f : GVal → OVal × Option GoErr) (r : HReq)
    (hperm : (checkPermFuncs ps).1 = true) (hlen : r.contentLength ≠ 0) :
    (∀ m, decodeBody ty r.body = .error m →
        handlerTwoArg ps ty f r
          = .respond { status := 400, contentType := some "application/json",
                       body := .message "error" ("parsing body: " ++ m) } 0) ∧
    (∀ gv, decodeBody ty r.body = .ok (some gv) →
        handlerTwoArg ps ty f r
          = .respond (match f gv with
                      | (_, some e) => httpError e
                      | (out, none) => encodeOutput out) 1) ∧
    (∀ v, r.body = some v → hasUnknownKey ty v = true →
        ∃ m, decodeBody ty r.body = .error m) ∧
    (r.body = some .jnull →
        handlerTwoArg ps ty f r
          = .panicked "reflect: call of reflect.Value.Elem on zero Value") := by
  refine ⟨?_, ?_, ?_, ?_⟩
  · intro m hm
    unfold handlerTwoArg
    rw [hperm]
    simp [hlen, hm, httpError, asHTTPStatus, isNoRows, GoErr.message,
      httpMessage]
  · intro gv hgv
    unfold handlerTwoArg
    rw [hperm]
    rcases hf : f gv with ⟨out, err⟩
    cases err <;> simp [hlen, hgv, hf]
  · intro v hv hunk
    rw [hv]
    exact decodeInto_error_of_unknown hunk
  · intro hb
    unfold handlerTwoArg
    rw [hperm]
    simp [hlen, decodeBody, hb, decodeInto]

/-- Witness for C6 at concrete inputs: a body with the unknown key "b" is
rejected with a parsing-body 400 and no handler invocation; a well-formed
body reaches the handler exactly once; a null body panics in reflect
without reaching the handler. -/
theorem claim6_witness :
    handlerTwoArg [] (.iStruct [("a", .fInt)])
        (fun _ => (.ostr "ran", none))
        { contentLength := 9, body := some (.jobj [("b", .pnum 1)]) }
      = .respond { status := 400, contentType := some "application/json",
                   body := .message "error"
                     "parsing body: json: unknown field \"b\"" } 0 ∧
    handlerTwoArg [] (.iStruct [("a", .fInt)])
        (fun _ => (.ostr "ran", none))
        { contentLength := 9, body := some (.jobj [("a", .pnum 1)]) }
      = .respond (httpMessage 200 "info" "ran") 1 ∧
    handlerTwoArg [] (.iStruct [("a", .fInt)])
        (fun _ => (.ostr "ran", none))
        { contentLength := 5, body := some .jnull }
      = .panicked "reflect: call of reflect.Value.Elem on zero Value" :=
  ⟨(claim6_strict_decoding [] (.iStruct [("a", .fInt)])
      (fun _ => (.ostr "ran", none))
      { contentLength := 9, body := some (.jobj [("b", .pnum 1)]) }
      rfl (by decide)).1 "json: unknown field \"b\"" rfl,
   (claim6_strict_decoding [] (.iStruct [("a", .fInt)])
      (fun _ => (.ostr "ran", none))
      { contentLength := 9, body := some (.jobj [("a", .pnum 1)]) }
      rfl (by decide)).2.1 (.gStruct [("a", .gInt 1)]) rfl,
   (claim6_strict_decoding [] (.iStruct [("a", .fInt)])
      (fun _ => (.ostr "ran", none))
      { contentLength := 5, body := some .jnull }
      rfl (by decide)).2.2.2 rfl⟩

/-! ## Claim C7: success-path response encoding -/

/-- C7 counterexample: an output wrapped by `OutputWithStatus` with
declared status 201 is JSON-encoded by the `Handler` success path with
status 200: the output's declared `HTTPStatus` is never consulted, where
the claim predicts 201. -/
theorem claim7_counterexample :
    outHTTPStatus (OutputWithStatus 201 (.oint 5)) = some 201 ∧
    (encodeOutput (OutputWithStatus 201 (.oint 5))).status = 200 ∧
    (encodeOutput (OutputWithStatus 201 (.oint 5))).status ≠ 201 :=
  ⟨rfl, rfl, by decide⟩

/-- C7 amended: on a nil handler error the output is encoded as follows: a
string output produces the single-field "info" JSON object with status
200; a byte-slice output is written verbatim with no Content-Type; every
other output is JSON-encoded (honouring `MarshalJSON`) with status 200,
including outputs that declare their own `HTTPStatus`, whose declared
status is ignored by this path. -/
theorem claim7_success_encoding (o : OVal) :
    (∀ s, o = .ostr s → encodeOutput o = httpMessage 200 "info" s) ∧
    (∀ bs, o = .obytes bs →
        encodeOutput o
          = { status := 200, contentType := none, body := .raw bs }) ∧
    ((∀ s, o ≠ .ostr s) → (∀ bs, o ≠ .obytes bs) →
        encodeOutput o
          = { status := 200, contentType := some "application/json",
              body := .jsonBody (showJval (marshalO o) ++ "\n") }) := by
  refine ⟨?_, ?_, ?_⟩
  · rintro s rfl; rfl
  · rintro bs rfl; rfl
  · intro hs hb
    cases o with
    | ostr s => exact absurd rfl (hs s)
    | obytes bs => exact absurd rfl (hb bs)
    | oint n => rfl
    | ojson v => rfl
    | owrap s inner => rfl

/-- Witness for C7 at a concrete integer output. -/
theorem claim7_witness :
    encodeOutput (.oint 7)
      = { status := 200, contentType := some "application/json",
          body := .jsonBody "7\n" } :=
  (claim7_success_encoding (.oint 7)).2.2
    (fun _ h => (nomatch h)) (fun _ h => (nomatch h))

/-! ## Claim C8: value store and request scope -/

theorem storeGet_storeSet_self {V : Type} (m : Store V) (k : String) (v : V) :
    storeGet (storeSet m k v) k = some v := by
  induction m with
  | nil => simp [storeSet, storeGet]
  | cons p rest ih =>
    obtain ⟨k', v'⟩ := p
    by_cases h : k' = k
    · subst h; simp [storeSet, storeGet]
    · simp [storeSet, storeGet, h, ih]

theorem storeGet_storeSet_ne {V : Type} (m : Store V) {k k' : String}
    (h : k' ≠ k) (v : V) : storeGet (storeSet m k v) k' = storeGet m k' := by
  have hkk : ¬ k = k' := fun hh => h hh.symm
  induction m with
  | nil => simp [storeSet, storeGet, hkk]
  | cons p rest ih =>
    obtain ⟨k1, v1⟩ := p
    by_cases h1 : k1 = k
    · subst h1
      simp [storeSet, storeGet, hkk]
    · simp [storeSet, storeGet, h1, ih]

theorem storeGet_eq_none_of_not_mem {V : Type} {m : Store V} {k : String}
    (h : k ∉ m.map Prod.fst) : storeGet m k = none := by
  induction m with
  | nil => rfl
  | cons p rest ih =>
    obtain ⟨k', v'⟩ := p
    simp only [List.map_cons, List.mem_cons] at h
    push_neg at h
    have hne : ¬ k' = k := fun hh => h.1 hh.symm
    simp [storeGet, hne, ih h.2]

theorem foldl_storeSet_get {V : Type} (s : Store V) :
    ∀ (init : Store V) (k : String), (s.map Prod.fst).Nodup →
      storeGet (s.foldl (fun m p => storeSet m p.1 p.2) init) k
        = (match storeGet s k with
           | some v => some v
           | none => storeGet init k) := by
  induction s with
  | nil => intro init k _; simp [storeGet]
  | cons p rest ih =>
    intro init k hnd
    obtain ⟨k1, v1⟩ := p
    simp only [List.map_cons, List.nodup_cons] at hnd
    obtain ⟨hk1, hrest⟩ := hnd
    rw [List.foldl_cons, ih (storeSet init k1 v1) k hrest]
    by_cases h : k1 = k
    · subst h
      have hnone : storeGet rest k1 = none :=
        storeGet_eq_none_of_not_mem hk1
      rw [hnone]
      simp [storeGet, storeGet_storeSet_self]
    · have hset : storeGet (storeSet init k1 v1) k = storeGet init k :=
        storeGet_storeSet_ne init (fun hh => h hh.symm) v1
      have hcons : storeGet ((k1, v1) :: rest) k = storeGet rest k := by
        simp [storeGet, h]
      rw [hcons, hset]

theorem getD_append_singleton {α : Type} (l : List α) (x d : α) :
    (l ++ [x]).getD l.length d = x := by
  induction l with
  | nil => rfl
  | cons y ys ih => simp [ih]

theorem getD_set_ne {α : Type} (l : List α) {i j : Nat} (hij : i ≠ j)
    (a d : α) : (l.set i a).getD j d = l.getD j d := by
  induction l generalizing i j with
  | nil => simp [List.set]
  | cons x xs ih =>
    cases i with
    | zero =>
      cases j with
      | zero => exact absurd rfl hij
      | succ j' => simp [List.set]
    | succ i' =>
      cases j with
      | zero => simp [List.set]
      | succ j' =>
        simp only [List.set, List.getD_cons_succ]
        exact ih (fun hh => hij (by simp [hh]))

theorem getD_set_self {α : Type} (l : List α) {i : Nat} (hi : i < l.length)
    (a d : α) : (l.set i a).getD i d = a := by
  induction l generalizing i with
  | nil => exact absurd hi (by simp)
  | cons x xs ih =>
    cases i with
    | zero => rfl
    | succ i' =>
      simp only [List.set, List.getD_cons_succ]
      exact ih (by simpa using hi)

/-- C8: with distinct server keys, a fresh request's store answers exactly
the server store (every `Server.Set` pair is readable through
`Request.Get`); a `Request.Set` on one request changes nothing observable
through `Server.Get` nor through `Request.Get` of any other request; and
the mutating request sees its own write. -/
theorem claim8_request_store_isolation {V : Type} (w : World V)
    (i j : Nat) (k k' : String) (v : V) :
    ((w.server.map Prod.fst).Nodup →
        worldReqGet (worldSpawn w) w.reqs.length k = worldServerGet w k) ∧
    (worldServerGet (worldReqSet w i k v) k' = worldServerGet w k') ∧
    (i ≠ j → worldReqGet (worldReqSet w i k v) j k' = worldReqGet w j k') ∧
    (i < w.reqs.length → worldReqGet (worldReqSet w i k v) i k = some v) := by
  refine ⟨?_, rfl, ?_, ?_⟩
  · intro hnd
    show storeGet ((w.reqs ++ [newRequestStore w.server]).getD w.reqs.length []) k
        = storeGet w.server k
    rw [getD_append_singleton]
    rw [show newRequestStore w.server
          = w.server.foldl (fun m p => storeSet m p.1 p.2) [] from rfl]
    rw [foldl_storeSet_get w.server [] k hnd]
    cases storeGet w.server k <;> rfl
  · intro hij
    show storeGet ((w.reqs.set i (storeSet (w.reqs.getD i []) k v)).getD j []) k'
        = storeGet (w.reqs.getD j []) k'
    rw [getD_set_ne w.reqs hij]
  · intro hi
    show storeGet ((w.reqs.set i (storeSet (w.reqs.getD i []) k v)).getD i []) k
        = some v
    rw [getD_set_self w.reqs hi]
    exact storeGet_storeSet_self _ k v

/-- Witness for C8 on a concrete two-request world: the spawned request
reads the server pair; a write in request 0 is invisible to the server
store and to request 1, while request 0 sees its own write. -/
theorem claim8_witness :
    worldReqGet (worldSpawn ({ server := [("a", (1 : Int))], reqs := [] }))
        0 "a" = some 1 ∧
    worldServerGet
        (worldReqSet
          (worldSpawn (worldSpawn { server := [("a", (1 : Int))], reqs := [] }))
          0 "a" 9) "a" = some 1 ∧
    worldReqGet
        (worldReqSet
          (worldSpawn (worldSpawn { server := [("a", (1 : Int))], reqs := [] }))
          0 "a" 9) 1 "a" = some 1 ∧
    worldReqGet
        (worldReqSet
          (worldSpawn (worldSpawn { server := [("a", (1 : Int))], reqs := [] }))
          0 "a" 9) 0 "a" = some 9 := by
  refine ⟨?_, ?_, ?_, ?_⟩
  · exact ((claim8_request_store_isolation
      { server := [("a", (1 : Int))], reqs := [] } 0 0 "a" "a" 9).1
        (by decide)).trans rfl
  · exact (claim8_request_store_isolation
      (worldSpawn (worldSpawn { server := [("a", (1 : Int))], reqs := [] }))
      0 1 "a" "a" 9).2.1.trans rfl
  · exact ((claim8_request_store_isolation
      (worldSpawn (worldSpawn { server := [("a", (1 : Int))], reqs := [] }))
      0 1 "a" "a" 9).2.2.1 (by decide)).trans rfl
  · exact (claim8_request_store_isolation
      (worldSpawn (worldSpawn { server := [("a", (1 : Int))], reqs := [] }))
      0 1 "a" "a" 9).2.2.2 (by decide)

/-! ## Claim C9: all-or-nothing listener startup -/

theorem stillOpen_append (a b : List NetEv) (acc : List (String × String)) :
    stillOpen (a ++ b) acc = stillOpen b (stillOpen a acc) := by
  induction a generalizing acc with
  | nil => rfl
  | cons ev rest ih => cases ev <;> simp [stillOpen, ih]

theorem stillOpen_closeAll (l : List (String × String))
    (acc : List (String × String)) :
    stillOpen (closeAll l) acc
      = l.foldl (fun a p => a.erase p) acc := by
  induction l generalizing acc with
  | nil => rfl
  | cons p rest ih =>
    obtain ⟨nw, ad⟩ := p
    rw [show closeAll ((nw, ad) :: rest)
          = .closed nw ad :: closeAll rest from rfl]
    rw [show stillOpen (NetEv.closed nw ad :: closeAll rest) acc
          = stillOpen (closeAll rest) (acc.erase (nw, ad)) from rfl]
    rw [ih]
    rfl

theorem foldl_erase_self {α : Type} [BEq α] [LawfulBEq α] (l : List α) :
    l.foldl (fun a p => a.erase p) l = [] := by
  induction l with
  | nil => rfl
  | cons p rest ih =>
    rw [List.foldl_cons, List.erase_cons_head]
    exact ih

theorem stillOpen_closeAll_of_open (evs : List NetEv)
    (opened : List (String × String)) (h : stillOpen evs [] = opened) :
    stillOpen (evs ++ closeAll opened) [] = [] := by
  rw [stillOpen_append, h, stillOpen_closeAll, foldl_erase_self]

theorem serveLoop_error_all_closed (bindOk : String → String → Bool) :
    ∀ (addrs : List String) (opened : List (String × String))
      (evs : List NetEv), stillOpen evs [] = opened →
      ∀ msg, (serveLoop bindOk addrs opened evs).2 = some msg →
        stillOpen (serveLoop bindOk addrs opened evs).1 [] = [] := by
  intro addrs
  induction addrs with
  | nil =>
    intro opened evs hinv msg hmsg
    exact absurd hmsg (by simp [serveLoop])
  | cons ad rest ih =>
    intro opened evs hinv msg hmsg
    cases hp : parseAddr ad with
    | none =>
      rw [show serveLoop bindOk (ad :: rest) opened evs
            = (evs ++ closeAll opened,
               some ("Serve: " ++ ad ++ ": unrecognized address")) from by
        simp [serveLoop, hp]]
      exact stillOpen_closeAll_of_open evs opened hinv
    | some nwa =>
      obtain ⟨nw, a⟩ := nwa
      by_cases hb : bindOk nw a
      · have hstep : serveLoop bindOk (ad :: rest) opened evs
            = serveLoop bindOk rest (opened ++ [(nw, a)])
                (evs ++ [.bound nw a, .serveStarted nw a]) := by
          simp [serveLoop, hp, hb]
        rw [hstep]
        rw [hstep] at hmsg
        refine ih (opened ++ [(nw, a)])
          (evs ++ [.bound nw a, .serveStarted nw a]) ?_ msg hmsg
        rw [stillOpen_append, hinv]
        rfl
      · rw [show serveLoop bindOk (ad :: rest) opened evs
              = (evs ++ closeAll opened,
                 some ("listen " ++ nw ++ " " ++ a ++ ": bind failed")) from by
          simp [serveLoop, hp, hb]]
        exact stillOpen_closeAll_of_open evs opened hinv

theorem serveLoop_none_iff (bindOk : String → String → Bool) :
    ∀ (addrs : List String) (opened : List (String × String))
      (evs : List NetEv),
      (serveLoop bindOk addrs opened evs).2 = none ↔
        ∀ ad ∈ addrs, ∃ nw a,
          parseAddr ad = some (nw, a) ∧ bindOk nw a = true := by
  intro addrs
  induction addrs with
  | nil =>
    intro opened evs
    simp [serveLoop]
  | cons ad rest ih =>
    intro opened evs
    cases hp : parseAddr ad with
    | none =>
      simp only [serveLoop, hp]
      constructor
      · intro h; exact absurd h (by simp)
      · intro h
        obtain ⟨nw, a, hpa, -⟩ := h ad (List.mem_cons_self _ _)
        exact absurd (hp ▸ hpa) (by simp)
    | some nwa =>
      obtain ⟨nw, a⟩ := nwa
      by_cases hb : bindOk nw a
      · have hstep : serveLoop bindOk (ad :: rest) opened evs
            = serveLoop bindOk rest (opened ++ [(nw, a)])
                (evs ++ [.bound nw a, .serveStarted nw a]) := by
          simp [serveLoop, hp, hb]
        rw [hstep, ih]
        constructor
        · intro h ad' had'
          rcases List.mem_cons.mp had' with rfl | hmem
          · exact ⟨nw, a, hp, hb⟩
          · exact h ad' hmem
        · intro h ad' hmem
          exact h ad' (List.mem_cons_of_mem _ hmem)
      · rw [show serveLoop bindOk (ad :: rest) opened evs
              = (evs ++ closeAll opened,
                 some ("listen " ++ nw ++ " " ++ a ++ ": bind failed")) from by
          simp [serveLoop, hp, hb]]
        constructor
        · intro h; exact absurd h (by simp)
        · intro h
          obtain ⟨nw', a', hpa, hb'⟩ := h ad (List.mem_cons_self _ _)
          rw [hp] at hpa
          obtain ⟨rfl, rfl⟩ : nw = nw' ∧ a = a' := by
            injection hpa with hh
            exact ⟨congrArg Prod.fst hh, congrArg Prod.snd hh⟩
          exact absurd hb' (by simp [hb])

/-- C9: `Serve` with zero addresses returns the specific non-nil error
without binding anything; the startup phase reaches the serving state (no
startup error) exactly when there is at least one address and every
address is recognized and binds successfully; and whenever a startup error
is returned, every listener opened by the call has been closed, so no
listener remains serving unless all binds succeed. -/
theorem claim9_all_or_nothing_startup (bindOk : String → String → Bool)
    (addrs : List String) :
    (addrs = [] → serve bindOk addrs
        = ([], some "Serve: no addresses to listen for connections")) ∧
    ((serve bindOk addrs).2 = none ↔
        (addrs ≠ [] ∧ ∀ ad ∈ addrs, ∃ nw a,
            parseAddr ad = some (nw, a) ∧ bindOk nw a = true)) ∧
    (∀ msg, (serve bindOk addrs).2 = some msg →
        stillOpen (serve bindOk addrs).1 [] = []) := by
  refine ⟨?_, ?_, ?_⟩
  · intro h; subst h; rfl
  · cases haddrs : addrs with
    | nil => simp [serve]
    | cons ad rest =>
      rw [show serve bindOk (ad :: rest)
            = serveLoop bindOk (ad :: rest) [] [] from by simp [serve]]
      rw [serveLoop_none_iff]
      simp
  · intro msg hmsg
    cases haddrs : addrs with
    | nil =>
      subst haddrs
      simp [serve, stillOpen]
    | cons ad rest =>
      subst haddrs
      rw [show serve bindOk (ad :: rest)
            = serveLoop bindOk (ad :: rest) [] [] from by simp [serve]] at hmsg ⊢
      exact serveLoop_error_all_closed bindOk (ad :: rest) [] [] rfl msg hmsg

/-- Witness for C9: two addresses bind, the third fails; the startup error
is returned and no listener remains open. -/
theorem claim9_witness :
    stillOpen
      (serve (fun _ a => !(a == "bad:1")) ["x:1", "unix!/s", "bad:1"]).1 []
      = [] :=
  (claim9_all_or_nothing_startup (fun _ a => !(a == "bad:1"))
      ["x:1", "unix!/s", "bad:1"]).2.2
    "listen tcp bad:1: bind failed" (by decide)

/-! ## Claim C10: the status-carrying output wrapper -/

/-- C10: `OutputWithStatus(s, v)` yields a value whose `HTTPStatus()` is
`s` and whose `MarshalJSON` encoding — both as a JSON value and as rendered
bytes — is identical to `json.Marshal(v)`: attaching a status never changes
the JSON representation. -/
theorem claim10_output_with_status (s : Int) (v : OVal) :
    outHTTPStatus (OutputWithStatus s v) = some s ∧
    marshalO (OutputWithStatus s v) = marshalO v ∧
    showJval (marshalO (OutputWithStatus s v)) = showJval (marshalO v) :=
  ⟨rfl, rfl, rfl⟩

end Api
